import Mathlib

/-!
Shallow embedding of the PPO model-construction module
(python/unitytrainers/ppo/models.py) and verification of its
specified properties.

Tensors that the source treats element-wise are embedded as lists of
rationals, one entry per timestep (or per flattened element); the
graph-structure facts (which features are concatenated into which
tensor, and their widths) are embedded as lists of feature tags with a
width function.  The transcendental parts (tf.log in the discrete
inverse loss) are embedded over the reals.
-/

namespace PPOModels

/-- tf.clip_by_value: clamp x into the interval from lo to hi. -/
def clip_by_value (x lo hi : ℚ) : ℚ := min (max x lo) hi

/-- tf.boolean_mask with a 0/1 float mask compared against 1.0
(source line 162: mask = tf.equal(mask_input, 1.0)): keep the entries
of xs whose mask entry equals 1. -/
def boolean_mask (xs mask : List ℚ) : List ℚ :=
  (xs.zip mask).filterMap (fun p => if p.2 = 1 then some p.1 else none)

/-- tf.reduce_mean over a vector: sum divided by length. -/
def reduce_mean (xs : List ℚ) : ℚ := xs.sum / xs.length

/-- tf.squared_difference. -/
def squared_difference (x y : ℚ) : ℚ := (x - y) ^ 2

/-- Source line 174: r_theta = probs / (old_probs + 1e-10). -/
def r_theta (probs old_probs : ℚ) : ℚ := probs / (old_probs + 1e-10)

/-- Source line 175: unclipped objective r_theta * advantage. -/
def p_opt_a (probs old_probs advantage : ℚ) : ℚ :=
  r_theta probs old_probs * advantage

/-- Source line 176: clipped objective. -/
def p_opt_b (eps probs old_probs advantage : ℚ) : ℚ :=
  clip_by_value (r_theta probs old_probs) (1 - eps) (1 + eps) * advantage

/-- Per-timestep surrogate objective: minimum of the unclipped and
clipped objectives (source line 177, inside the mask and mean). -/
def policy_objective (eps probs old_probs advantage : ℚ) : ℚ :=
  min (p_opt_a probs old_probs advantage) (p_opt_b eps probs old_probs advantage)

/-- Source line 177: policy loss is the negated masked mean of the
per-timestep surrogate objective. -/
def policy_loss (eps : ℚ) (probs old_probs advantage mask : List ℚ) : ℚ :=
  -(reduce_mean (boolean_mask
      ((probs.zip (old_probs.zip advantage)).map
        (fun t => policy_objective eps t.1 t.2.1 t.2.2)) mask))

/-- The policy-loss formula exactly as the spec states it, written
independently of the defs above for comparison. -/
def policy_loss_spec_formula (eps : ℚ) (probs old_probs advantage mask : List ℚ) : ℚ :=
  -(reduce_mean (boolean_mask
      ((probs.zip (old_probs.zip advantage)).map
        (fun t => min (t.1 / (t.2.1 + 1e-10) * t.2.2)
          (clip_by_value (t.1 / (t.2.1 + 1e-10)) (1 - eps) (1 + eps) * t.2.2))) mask))

/-- Source lines 164-165: clipped value estimate, the old estimate plus
the change clipped to the decayed epsilon. -/
def clipped_value_estimate (eps old_value value : ℚ) : ℚ :=
  old_value + clip_by_value (value - old_value) (-eps) eps

/-- Source line 167: squared error of the unclipped estimate. -/
def v_opt_a (returns value : ℚ) : ℚ := squared_difference returns value

/-- Source line 168: squared error of the clipped estimate. -/
def v_opt_b (eps returns old_value value : ℚ) : ℚ :=
  squared_difference returns (clipped_value_estimate eps old_value value)

/-- Source line 169: value loss, the masked mean of the element-wise
maximum of the two squared errors.  The value tensor is represented by
its per-timestep row sum (tf.reduce_sum(value, axis=1)). -/
def value_loss (eps : ℚ) (returns old_value value mask : List ℚ) : ℚ :=
  reduce_mean (boolean_mask
    ((returns.zip (old_value.zip value)).map
      (fun t => max (v_opt_a t.1 t.2.2) (v_opt_b eps t.1 t.2.1 t.2.2))) mask)

/-- The value-loss formula exactly as the spec states it. -/
def value_loss_spec_formula (eps : ℚ) (returns old_value value mask : List ℚ) : ℚ :=
  reduce_mean (boolean_mask
    ((returns.zip (old_value.zip value)).map
      (fun t => max ((t.1 - t.2.2) ^ 2)
        ((t.1 - (t.2.1 + clip_by_value (t.2.2 - t.2.1) (-eps) eps)) ^ 2))) mask)

/-- Source lines 179-182: total loss.  The curiosity term is added only
when use_curiosity is set. -/
def loss (use_curiosity : Bool) (eps beta : ℚ)
    (probs old_probs advantage returns old_value value entropy mask : List ℚ)
    (forward_loss_value inverse_loss_value : ℚ) : ℚ :=
  (policy_loss eps probs old_probs advantage mask
    + 0.5 * value_loss eps returns old_value value mask
    - beta * reduce_mean (boolean_mask entropy mask))
  + (if use_curiosity then 10 * (0.2 * forward_loss_value + 0.8 * inverse_loss_value) else 0)

/-- tf.train.polynomial_decay with power 1 and cycle off: the step is
clamped to the horizon and the value decays linearly from the initial
value to the end value (source lines 153, 158, 159). -/
def polynomial_decay (initial end_value : ℚ) (max_step step : ℕ) : ℚ :=
  (initial - end_value) * (1 - ((min step max_step : ℕ) : ℚ) / (max_step : ℚ)) + end_value

/-- Source line 153: learning-rate schedule with floor 1e-10. -/
def learning_rate (lr : ℚ) (max_step step : ℕ) : ℚ :=
  polynomial_decay lr 1e-10 max_step step

/-- Source line 158: clip-epsilon schedule with floor 0.1. -/
def decay_epsilon (epsilon : ℚ) (max_step step : ℕ) : ℚ :=
  polynomial_decay epsilon 0.1 max_step step

/-- Source line 159: entropy-beta schedule with floor 1e-5. -/
def decay_beta (beta : ℚ) (max_step step : ℕ) : ℚ :=
  polynomial_decay beta 1e-5 max_step step

/-- The four properties the spec requires of every schedule. -/
def ScheduleSpec (sched : ℕ → ℚ) (initial floor_value : ℚ) (max_step : ℕ) : Prop :=
  sched 0 = initial ∧
  sched max_step = floor_value ∧
  (∀ s t : ℕ, s ≤ t → sched t ≤ sched s) ∧
  (∀ s : ℕ, max_step < s → sched s = floor_value)

/-- State of the reward tracker: the persistent scalar. -/
structure RewardEncoder where
  last_reward : ℚ
deriving DecidableEq

/-- Source line 46: the persistent scalar is a variable initialized to 0. -/
def create_reward_encoder : RewardEncoder := ⟨0⟩

/-- Source line 48: the update operation overwrites the scalar with the
new value. -/
def update_reward (_enc : RewardEncoder) (new_reward : ℚ) : RewardEncoder :=
  ⟨new_reward⟩

/-- Feature tags naming the tensors concatenated inside the curiosity
module (source lines 59-110): the combined visual encoding and the
vector encoding for the current and the next observation, and the
recurrent memory state. -/
inductive Feat where
  | visualCur
  | visualNext
  | vectorCur
  | vectorNext
  | memory
deriving DecidableEq

/-- Tensors assembled by create_inverse_model (source lines 51-121):
the combined input of the inverse model and the two encoded-state
tensors it returns. -/
structure InverseModelGraph where
  inverse_input_list : List Feat
  encoded_state : List Feat
  encoded_next_state : List Feat
deriving DecidableEq

/-- Structure of create_inverse_model (source lines 59-121): when
visual observations are present the concatenated visual encoders are
appended to the input list and to both encoded states; when the vector
observation is present the vector encoders are appended likewise; and
when recurrent the memory state is appended to the input list only. -/
def create_inverse_model (v_size o_size : ℕ) (use_recurrent : Bool) : InverseModelGraph :=
  ⟨(if 0 < v_size then [Feat.visualCur, Feat.visualNext] else [])
     ++ (if 0 < o_size then [Feat.vectorCur, Feat.vectorNext] else [])
     ++ (if use_recurrent then [Feat.memory] else []),
   (if 0 < v_size then [Feat.visualCur] else [])
     ++ (if 0 < o_size then [Feat.vectorCur] else []),
   (if 0 < v_size then [Feat.visualNext] else [])
     ++ (if 0 < o_size then [Feat.vectorNext] else [])⟩

/-- Modelled from the spec: the visual and vector observation encoders
(create_visual_observation_encoder, create_continuous_observation_encoder,
defined in the external unitytrainers.models library) each produce a
feature vector whose width is the h_size argument, which the curiosity
module fixes at 128 (source lines 77, 79, 97, 99); the per-camera
visual features are concatenated (source line 84), giving the combined
visual encoding width 128 times the camera count.  The memory width is
the configured memory size. -/
def feat_width (v_size m_size : ℕ) : Feat → ℕ
  | Feat.visualCur => 128 * v_size
  | Feat.visualNext => 128 * v_size
  | Feat.vectorCur => 128
  | Feat.vectorNext => 128
  | Feat.memory => m_size

/-- Width of an assembled tensor: the sum of its segment widths. -/
def tensor_width (v_size m_size : ℕ) (feats : List Feat) : ℕ :=
  (feats.map (feat_width v_size m_size)).sum

/-- Renaming a current-step feature to the matching next-step feature. -/
def to_next_feat : Feat → Feat
  | Feat.visualCur => Feat.visualNext
  | Feat.vectorCur => Feat.vectorNext
  | f => f

/-- Source line 133: the forward-model output layer is a dense layer of
fixed width 128. -/
def pred_next_state_width : ℕ := 128

/-- Per-example sum of squared differences between a predicted and an
actual encoding (tf.reduce_sum(tf.squared_difference(..), axis=1)). -/
def sum_squared_difference (pred actual : List ℚ) : ℚ :=
  ((pred.zip actual).map (fun p => squared_difference p.1 p.2)).sum

/-- Source line 135: the per-example quantity is HALF the sum of
squared differences. -/
def forward_squared_difference (pred actual : List ℚ) : ℚ :=
  0.5 * sum_squared_difference pred actual

/-- Source line 136: intrinsic reward per example. -/
def intrinsic_reward (pred actual : List ℚ) : ℚ :=
  0.01 * forward_squared_difference pred actual

/-- Source line 137: forward loss, the batch mean of the per-example
quantity of line 135. -/
def forward_loss (batch : List (List ℚ × List ℚ)) : ℚ :=
  reduce_mean (batch.map (fun b => forward_squared_difference b.1 b.2))

/-- Source line 118: per-example cross-entropy of the predicted action
distribution against the selected (one-hot) action, with 1e-10 added
inside the logarithm, summed over the action dimensions. -/
noncomputable def cross_entropy : List ℝ → List ℝ → ℝ
  | p :: ps, s :: ss => -Real.log (p + 1e-10) * s + cross_entropy ps ss
  | _, _ => 0

/-- Source line 119: discrete inverse loss, the batch mean of the
per-example cross-entropy.  Each batch element pairs the predicted
distribution with the selected one-hot action. -/
noncomputable def inverse_loss_discrete (batch : List (List ℝ × List ℝ)) : ℝ :=
  (batch.map (fun b => cross_entropy b.1 b.2)).sum / (batch.length : ℝ)

/-- A one-hot vector: a single entry 1, every other entry 0. -/
inductive OneHot : List ℝ → Prop
  | head (t : List ℝ) (ht : ∀ x ∈ t, x = 0) : OneHot (1 :: t)
  | cons (t : List ℝ) (h : OneHot t) : OneHot (0 :: t)

/-- The fields of the BrainSpec consumed during construction. -/
structure Brain where
  vector_observation_space_size : ℕ
  num_stacked_vector_observations : ℕ
  vector_action_space_size : ℕ
  vector_action_space_type : String
  number_visual_observations : ℕ
deriving DecidableEq

/-- Which actor-critic head the constructor builds (source lines 33-37). -/
inductive ActionHead where
  | continuous
  | discrete
deriving DecidableEq

/-- Observable outcome of a successful construction. -/
structure PPOGraph where
  last_reward : ℚ
  action_head : ActionHead
  effective_num_layers : ℤ
  has_curiosity : Bool
deriving DecidableEq

/-- Construction flow of PPOModel.__init__ (source lines 27-42):
clamp a non-positive layer count to 1; build the continuous head when
the action-space type is the string continuous and the discrete head
for ANY other string; when curiosity is requested, build the inverse
model, which fails if there is neither a visual nor a vector
observation (tf.concat of an empty tensor list, source lines 110 and
121), and then the forward model, which fails when the fixed-width
prediction layer cannot be compared against the encoded next state
(tf.squared_difference shape mismatch, source line 135). -/
def create_model (brain : Brain) (num_layers : ℤ) (use_recurrent use_curiosity : Bool) :
    Except String PPOGraph :=
  let nl : ℤ := if num_layers < 1 then 1 else num_layers
  let head : ActionHead :=
    if brain.vector_action_space_type = "continuous" then ActionHead.continuous
    else ActionHead.discrete
  if use_curiosity then
    let o_size := brain.vector_observation_space_size * brain.num_stacked_vector_observations
    let v_size := brain.number_visual_observations
    if 0 < v_size ∨ 0 < o_size then
      let g := create_inverse_model v_size o_size use_recurrent
      if pred_next_state_width = tensor_width v_size 0 g.encoded_state then
        Except.ok ⟨0, head, nl, true⟩
      else
        Except.error "incompatible tensor widths in forward-model squared_difference"
    else
      Except.error "tf.concat applied to an empty tensor list in the curiosity module"
  else
    Except.ok ⟨0, head, nl, false⟩

/- Helper lemmas. -/

lemma mem_of_mem_boolean_mask {x : ℚ} {xs mask : List ℚ}
    (h : x ∈ boolean_mask xs mask) : x ∈ xs := by
  unfold boolean_mask at h
  obtain ⟨p, hp, hpx⟩ := List.mem_filterMap.1 h
  by_cases h2 : p.2 = 1
  · rw [if_pos h2, Option.some_inj] at hpx
    exact hpx ▸ (List.of_mem_zip hp).1
  · rw [if_neg h2] at hpx
    exact absurd hpx (Option.noConfusion)

lemma reduce_mean_nonneg {xs : List ℚ} (h : ∀ x ∈ xs, 0 ≤ x) :
    0 ≤ reduce_mean xs :=
  div_nonneg (List.sum_nonneg h) (Nat.cast_nonneg _)

lemma policy_objective_of_ratio_one {eps probs old_probs : ℚ} (advantage : ℚ)
    (heps : 0 ≤ eps) (hr : r_theta probs old_probs = 1) :
    policy_objective eps probs old_probs advantage = advantage := by
  unfold policy_objective p_opt_a p_opt_b clip_by_value
  have hmax : max (1:ℚ) (1 - eps) = 1 := max_eq_left (by linarith)
  have hmin : min (1:ℚ) (1 + eps) = 1 := min_eq_left (by linarith)
  rw [hr, hmax, hmin, one_mul, min_self]

lemma map_policy_objective_of_ratio_one (eps : ℚ) (heps : 0 ≤ eps) :
    ∀ (probs old_probs advantage : List ℚ),
      probs.length = old_probs.length → old_probs.length = advantage.length →
      (∀ x ∈ probs.zip old_probs, r_theta x.1 x.2 = 1) →
      (probs.zip (old_probs.zip advantage)).map
        (fun t => policy_objective eps t.1 t.2.1 t.2.2) = advantage := by
  intro probs
  induction probs with
  | nil =>
    intro o a h1 h2 _
    have ho : o = [] := List.eq_nil_of_length_eq_zero h1.symm
    subst ho
    have ha : a = [] := List.eq_nil_of_length_eq_zero h2.symm
    subst ha
    rfl
  | cons p ps ih =>
    intro o a h1 h2 hr
    cases o with
    | nil => simp at h1
    | cons q qs =>
      cases a with
      | nil => simp at h2
      | cons b bs =>
        simp only [List.zip_cons_cons, List.map_cons]
        refine congrArg₂ List.cons ?_ ?_
        · exact policy_objective_of_ratio_one b heps
            (hr (p, q) (List.mem_cons_self _ _))
        · exact ih qs bs (by simpa using h1) (by simpa using h2)
            (fun x hx => hr x (List.mem_cons_of_mem _ hx))

/-- C1: the policy loss equals the negated masked mean of
min(r times advantage, clip(r, 1 - eps, 1 + eps) times advantage) with
r = probs / (old_probs + 1e-10); and when r equals 1 everywhere and
every advantage is nonnegative the policy loss equals the negated mean
of the masked advantages. -/
theorem policy_loss_matches_spec (eps : ℚ) (probs old_probs advantage mask : List ℚ)
    (heps : 0 ≤ eps)
    (h1 : probs.length = old_probs.length)
    (h2 : old_probs.length = advantage.length)
    (_hadv : ∀ a ∈ advantage, 0 ≤ a)
    (hr : ∀ x ∈ probs.zip old_probs, r_theta x.1 x.2 = 1) :
    (∀ (e : ℚ) (p o a m : List ℚ),
      policy_loss e p o a m = policy_loss_spec_formula e p o a m) ∧
    policy_loss eps probs old_probs advantage mask =
      -(reduce_mean (boolean_mask advantage mask)) := by
  constructor
  · intro e p o a m
    rfl
  · unfold policy_loss
    rw [map_policy_objective_of_ratio_one eps heps probs old_probs advantage h1 h2 hr]

/-- Witness for C1 at a concrete batch: one timestep with probability
1, old probability 1 - 1e-10 (so the ratio is exactly 1), advantage 2
and mask 1. -/
theorem policy_loss_matches_spec_witness :
    ((0:ℚ) ≤ 0.2 ∧
     [(1:ℚ)].length = [(1:ℚ) - 1e-10].length ∧
     [(1:ℚ) - 1e-10].length = [(2:ℚ)].length ∧
     (∀ a ∈ [(2:ℚ)], 0 ≤ a) ∧
     (∀ x ∈ [(1:ℚ)].zip [(1:ℚ) - 1e-10], r_theta x.1 x.2 = 1)) ∧
    ((∀ (e : ℚ) (p o a m : List ℚ),
        policy_loss e p o a m = policy_loss_spec_formula e p o a m) ∧
      policy_loss 0.2 [1] [1 - 1e-10] [2] [1] =
        -(reduce_mean (boolean_mask [2] [1]))) :=
  ⟨⟨by norm_num, rfl, rfl, by decide,
      by intro x hx; simp only [List.zip_cons_cons, List.zip_nil_right, List.mem_singleton] at hx
         subst hx; unfold r_theta; norm_num⟩,
    policy_loss_matches_spec 0.2 [1] [1 - 1e-10] [2] [1]
      (by norm_num) rfl rfl (by decide)
      (by intro x hx; simp only [List.zip_cons_cons, List.zip_nil_right, List.mem_singleton] at hx
          subst hx; unfold r_theta; norm_num)⟩

/-- C3: the value loss equals the masked mean of the element-wise
maximum of the squared error of the current estimate and the squared
error of the old estimate plus the clipped change, and it is always
nonnegative. -/
theorem value_loss_matches_spec :
    (∀ (eps : ℚ) (returns old_value value mask : List ℚ),
      value_loss eps returns old_value value mask =
        value_loss_spec_formula eps returns old_value value mask) ∧
    (∀ (eps : ℚ) (returns old_value value mask : List ℚ),
      0 ≤ value_loss eps returns old_value value mask) := by
  constructor
  · intro eps returns old_value value mask
    rfl
  · intro eps returns old_value value mask
    apply reduce_mean_nonneg
    intro x hx
    obtain ⟨t, _, ht⟩ := List.mem_map.1 (mem_of_mem_boolean_mask hx)
    calc (0:ℚ) ≤ (t.1 - t.2.2) ^ 2 := sq_nonneg _
    _ ≤ x := ht ▸ le_max_left _ _

/-- C2: the total loss is policy loss plus half the value loss minus
decayed beta times the masked mean entropy; with curiosity the term
10 times (0.2 forward + 0.8 inverse) is added; without curiosity the
total loss does not depend on the curiosity inputs. -/
theorem total_loss_composition :
    (∀ (eps beta : ℚ) (probs old_probs advantage returns old_value value entropy mask : List ℚ)
       (fl il : ℚ),
      loss true eps beta probs old_probs advantage returns old_value value entropy mask fl il =
        policy_loss eps probs old_probs advantage mask
          + 0.5 * value_loss eps returns old_value value mask
          - beta * reduce_mean (boolean_mask entropy mask)
          + 10 * (0.2 * fl + 0.8 * il)) ∧
    (∀ (eps beta : ℚ) (probs old_probs advantage returns old_value value entropy mask : List ℚ)
       (fl il : ℚ),
      loss false eps beta probs old_probs advantage returns old_value value entropy mask fl il =
        policy_loss eps probs old_probs advantage mask
          + 0.5 * value_loss eps returns old_value value mask
          - beta * reduce_mean (boolean_mask entropy mask)) ∧
    (∀ (eps beta : ℚ) (probs old_probs advantage returns old_value value entropy mask : List ℚ)
       (fl il fl2 il2 : ℚ),
      loss false eps beta probs old_probs advantage returns old_value value entropy mask fl il =
        loss false eps beta probs old_probs advantage returns old_value value entropy mask fl2 il2) := by
  refine ⟨fun _ _ _ _ _ _ _ _ _ _ _ _ => rfl, fun _ _ _ _ _ _ _ _ _ _ _ _ => ?_,
    fun _ _ _ _ _ _ _ _ _ _ _ _ _ _ => rfl⟩
  unfold loss
  simp

lemma polynomial_decay_step_zero (initial end_value : ℚ) (max_step : ℕ) :
    polynomial_decay initial end_value max_step 0 = initial := by
  unfold polynomial_decay
  rw [min_eq_left (Nat.zero_le max_step)]
  push_cast
  ring

lemma polynomial_decay_at_horizon (initial end_value : ℚ) (max_step : ℕ)
    (hm : 0 < max_step) (step : ℕ) (hs : max_step ≤ step) :
    polynomial_decay initial end_value max_step step = end_value := by
  unfold polynomial_decay
  rw [min_eq_right hs, div_self (by exact_mod_cast hm.ne')]
  ring

lemma polynomial_decay_antitone (initial end_value : ℚ) (max_step : ℕ)
    (he : end_value ≤ initial) (s t : ℕ) (hst : s ≤ t) :
    polynomial_decay initial end_value max_step t ≤
      polynomial_decay initial end_value max_step s := by
  unfold polynomial_decay
  have hm0 : (0:ℚ) ≤ (max_step : ℚ) := Nat.cast_nonneg _
  have hmin : ((min s max_step : ℕ) : ℚ) ≤ ((min t max_step : ℕ) : ℚ) := by
    exact_mod_cast min_le_min hst (le_refl max_step)
  have hdiv : ((min s max_step : ℕ) : ℚ) / (max_step : ℚ) ≤
      ((min t max_step : ℕ) : ℚ) / (max_step : ℚ) := by
    rcases eq_or_lt_of_le hm0 with h0 | h0
    · rw [← h0, div_zero, div_zero]
    · exact (div_le_div_iff_of_pos_right h0).mpr hmin
  nlinarith [mul_nonneg (sub_nonneg.mpr he) (sub_nonneg.mpr hdiv)]

lemma polynomial_decay_schedule_spec (initial end_value : ℚ) (max_step : ℕ)
    (hm : 0 < max_step) (he : end_value ≤ initial) :
    ScheduleSpec (polynomial_decay initial end_value max_step) initial end_value max_step :=
  ⟨polynomial_decay_step_zero initial end_value max_step,
   polynomial_decay_at_horizon initial end_value max_step hm max_step (le_refl _),
   fun s t hst => polynomial_decay_antitone initial end_value max_step he s t hst,
   fun s hs => polynomial_decay_at_horizon initial end_value max_step hm s hs.le⟩

/-- C4: each of the three schedules starts at its configured initial
value, reaches its floor exactly at max_step, is monotonically
non-increasing, and stays exactly at the floor for every later step. -/
theorem schedule_properties (lr epsilon beta : ℚ) (max_step : ℕ)
    (hm : 0 < max_step) (hlr : 1e-10 ≤ lr) (heps : 0.1 ≤ epsilon) (hbeta : 1e-5 ≤ beta) :
    ScheduleSpec (learning_rate lr max_step) lr 1e-10 max_step ∧
    ScheduleSpec (decay_epsilon epsilon max_step) epsilon 0.1 max_step ∧
    ScheduleSpec (decay_beta beta max_step) beta 1e-5 max_step :=
  ⟨polynomial_decay_schedule_spec lr 1e-10 max_step hm hlr,
   polynomial_decay_schedule_spec epsilon 0.1 max_step hm heps,
   polynomial_decay_schedule_spec beta 1e-5 max_step hm hbeta⟩

/-- Witness for C4 with the default initial values 1e-4, 0.2 and 1e-3
and horizon 1000. -/
theorem schedule_properties_witness :
    (0 < 1000 ∧ (1e-10:ℚ) ≤ 1e-4 ∧ (0.1:ℚ) ≤ 0.2 ∧ (1e-5:ℚ) ≤ 1e-3) ∧
    (ScheduleSpec (learning_rate 1e-4 1000) 1e-4 1e-10 1000 ∧
     ScheduleSpec (decay_epsilon 0.2 1000) 0.2 0.1 1000 ∧
     ScheduleSpec (decay_beta 1e-3 1000) 1e-3 1e-5 1000) :=
  ⟨⟨by norm_num, by norm_num, by norm_num, by norm_num⟩,
    schedule_properties 1e-4 0.2 1e-3 1000
      (by norm_num) (by norm_num) (by norm_num) (by norm_num)⟩

/-- C5 counterexample: a vector_action_space_type that is neither
continuous nor discrete does NOT cause a configuration error; the
constructor falls into the else branch and builds the discrete head,
returning a usable model. -/
theorem unrecognized_action_type_accepted :
    create_model ⟨4, 1, 3, "foo", 0⟩ 2 false false =
      Except.ok ⟨0, ActionHead.discrete, 2, false⟩ := by
  rfl

/-- C5 amended: a non-positive layer count is silently clamped to 1;
curiosity with neither visual nor vector observations fails during
construction; but ANY action-space type other than continuous is
treated as discrete and construction succeeds. -/
theorem construction_contract_amended (brain : Brain) (num_layers : ℤ)
    (use_recurrent : Bool) :
    ((create_model brain num_layers use_recurrent false).map PPOGraph.effective_num_layers
       = Except.ok (if num_layers < 1 then 1 else num_layers)) ∧
    (brain.number_visual_observations = 0 →
      brain.vector_observation_space_size * brain.num_stacked_vector_observations = 0 →
      ∃ msg, create_model brain num_layers use_recurrent true = Except.error msg) ∧
    (brain.vector_action_space_type ≠ "continuous" →
      (create_model brain num_layers use_recurrent false).map PPOGraph.action_head
        = Except.ok ActionHead.discrete) := by
  refine ⟨rfl, ?_, ?_⟩
  · intro h1 h2
    refine ⟨"tf.concat applied to an empty tensor list in the curiosity module", ?_⟩
    simp [create_model, h1, h2]
  · intro h
    simp [create_model, h, Except.map]

/-- Witness for C5 at the concrete brain with no observations and the
action-space type foo, with layer count 0. -/
theorem construction_contract_amended_witness :
    ((⟨0, 0, 3, "foo", 0⟩ : Brain).number_visual_observations = 0 ∧
     (⟨0, 0, 3, "foo", 0⟩ : Brain).vector_observation_space_size *
       (⟨0, 0, 3, "foo", 0⟩ : Brain).num_stacked_vector_observations = 0 ∧
     (⟨0, 0, 3, "foo", 0⟩ : Brain).vector_action_space_type ≠ "continuous") ∧
    ((create_model ⟨0, 0, 3, "foo", 0⟩ 0 false false).map PPOGraph.effective_num_layers
       = Except.ok (if (0:ℤ) < 1 then 1 else 0) ∧
     (∃ msg, create_model ⟨0, 0, 3, "foo", 0⟩ 0 false true = Except.error msg) ∧
     (create_model ⟨0, 0, 3, "foo", 0⟩ 0 false false).map PPOGraph.action_head
       = Except.ok ActionHead.discrete) :=
  ⟨⟨rfl, rfl, by decide⟩,
   ⟨(construction_contract_amended ⟨0, 0, 3, "foo", 0⟩ 0 false).1,
    (construction_contract_amended ⟨0, 0, 3, "foo", 0⟩ 0 false).2.1 rfl rfl,
    (construction_contract_amended ⟨0, 0, 3, "foo", 0⟩ 0 false).2.2 (by decide)⟩⟩

/-- C6: the forward-model output layer has fixed width 128, which does
NOT equal the width of the encoded state in general: with one camera
and a vector observation the encoded state is 256 wide, so the
squared-difference against the 128-wide prediction is ill-formed and
construction crashes.  The forward-loss formula itself (mean of half
the per-example sum of squared differences) does hold. -/
theorem forward_model_width_mismatch :
    pred_next_state_width = 128 ∧
    tensor_width 1 0 (create_inverse_model 1 8 false).encoded_state = 256 ∧
    pred_next_state_width ≠ tensor_width 1 0 (create_inverse_model 1 8 false).encoded_state ∧
    (∀ batch : List (List ℚ × List ℚ),
      forward_loss batch =
        reduce_mean (batch.map (fun b => 0.5 * sum_squared_difference b.1 b.2))) :=
  ⟨rfl, by decide, by decide, fun _ => rfl⟩

/-- C7 counterexample: for the one-element encoding pair (1, 0) the
per-example sum of squared differences is 1, yet the intrinsic reward
is 0.005, not the 0.01 the claim states. -/
theorem intrinsic_reward_missing_half :
    intrinsic_reward [1] [0] ≠ 0.01 * sum_squared_difference [1] [0] := by
  unfold intrinsic_reward forward_squared_difference sum_squared_difference squared_difference
  norm_num

/-- C7 amended: the intrinsic reward per example is 0.01 times HALF the
per-example sum of squared differences, that is 0.005 times the sum. -/
theorem intrinsic_reward_formula :
    ∀ (pred actual : List ℚ),
      intrinsic_reward pred actual = 0.01 * (0.5 * sum_squared_difference pred actual) ∧
      intrinsic_reward pred actual = 0.005 * sum_squared_difference pred actual := by
  intro pred actual
  refine ⟨rfl, ?_⟩
  unfold intrinsic_reward forward_squared_difference
  ring

/-- C9 counterexample: with recurrence enabled, one camera and a
vector observation, the memory state is NOT part of the encoded state
or the encoded next state; it is only appended to the inverse-model
combined input. -/
theorem encoded_state_memory_not_included :
    (create_inverse_model 1 1 true).encoded_state ≠
      [Feat.visualCur, Feat.vectorCur, Feat.memory] ∧
    Feat.memory ∉ (create_inverse_model 1 1 true).encoded_state ∧
    Feat.memory ∉ (create_inverse_model 1 1 true).encoded_next_state ∧
    Feat.memory ∈ (create_inverse_model 1 1 true).inverse_input_list := by
  decide

/-- C9 amended: the encoded current and next state have identical
width and are built identically, visual features first then vector
features; the memory state is appended only to the inverse-model
combined input, never to either encoding. -/
theorem encoded_state_structure (v_size o_size m_size : ℕ) (use_recurrent : Bool) :
    tensor_width v_size m_size (create_inverse_model v_size o_size use_recurrent).encoded_state =
      tensor_width v_size m_size (create_inverse_model v_size o_size use_recurrent).encoded_next_state ∧
    (create_inverse_model v_size o_size use_recurrent).encoded_next_state =
      (create_inverse_model v_size o_size use_recurrent).encoded_state.map to_next_feat ∧
    (create_inverse_model v_size o_size use_recurrent).encoded_state =
      (if 0 < v_size then [Feat.visualCur] else [])
        ++ (if 0 < o_size then [Feat.vectorCur] else []) ∧
    Feat.memory ∉ (create_inverse_model v_size o_size use_recurrent).encoded_state ∧
    Feat.memory ∉ (create_inverse_model v_size o_size use_recurrent).encoded_next_state ∧
    Feat.memory ∈ (create_inverse_model v_size o_size true).inverse_input_list := by
  rcases Nat.eq_zero_or_pos v_size with hv | hv <;>
    rcases Nat.eq_zero_or_pos o_size with ho | ho <;>
      simp [create_inverse_model, tensor_width, feat_width, to_next_feat, hv, ho,
        lt_self_iff_false]

/-- C10: the reward-tracker persistent scalar is initialized to 0, so
every freshly constructed model reports last reward 0 before the
update operation ever runs. -/
theorem last_reward_initialized :
    create_reward_encoder.last_reward = 0 ∧
    ∀ (brain : Brain) (num_layers : ℤ) (use_recurrent use_curiosity : Bool) (g : PPOGraph),
      create_model brain num_layers use_recurrent use_curiosity = Except.ok g →
      g.last_reward = 0 := by
  refine ⟨rfl, ?_⟩
  intro brain num_layers use_recurrent use_curiosity g h
  simp only [create_model] at h
  split at h
  · split at h
    · split at h
      · injection h with h1
        rw [← h1]
      · exact Except.noConfusion h
    · exact Except.noConfusion h
  · injection h with h1
    rw [← h1]

/-- Witness for C10 at a concrete discrete brain. -/
theorem last_reward_initialized_witness :
    create_model ⟨4, 1, 3, "discrete", 0⟩ 2 false false =
      Except.ok ⟨0, ActionHead.discrete, 2, false⟩ ∧
    (⟨0, ActionHead.discrete, 2, false⟩ : PPOGraph).last_reward = 0 :=
  ⟨rfl, (last_reward_initialized).2 ⟨4, 1, 3, "discrete", 0⟩ 2 false false
    ⟨0, ActionHead.discrete, 2, false⟩ rfl⟩

lemma cross_entropy_right_zero :
    ∀ (p s : List ℝ), (∀ x ∈ s, x = 0) → cross_entropy p s = 0 := by
  intro p
  induction p with
  | nil =>
    intro s _
    cases s <;> simp [cross_entropy]
  | cons q qs ih =>
    intro s hs
    cases s with
    | nil => simp [cross_entropy]
    | cons a as =>
      have ha : a = 0 := hs a (List.mem_cons_self _ _)
      have htail := ih as (fun x hx => hs x (List.mem_cons_of_mem _ hx))
      simp [cross_entropy, ha, htail]

lemma cross_entropy_onehot_self (s : List ℝ) (h : OneHot s) :
    cross_entropy s s = -Real.log (1 + 1e-10) := by
  induction h with
  | head t ht => simp [cross_entropy, cross_entropy_right_zero t t ht]
  | cons t _ ih => simp [cross_entropy, ih]

lemma list_sum_map_const {α : Type} (l : List α) (f : α → ℝ) (c : ℝ)
    (h : ∀ x ∈ l, f x = c) : (l.map f).sum = c * l.length := by
  induction l with
  | nil => simp
  | cons x xs ih =>
    rw [List.map_cons, List.sum_cons, h x (List.mem_cons_self _ _),
      ih (fun y hy => h y (List.mem_cons_of_mem _ hy)), List.length_cons]
    push_cast
    ring

/-- C8: when every predicted distribution in the batch exactly equals
the one-hot selected action, the discrete inverse loss equals the
negated logarithm of 1 + 1e-10, whose absolute value is at most 1e-10,
so the loss is 0 within the numerical floor. -/
theorem inverse_loss_onehot (batch : List (List ℝ × List ℝ))
    (hne : batch ≠ [])
    (h : ∀ b ∈ batch, b.1 = b.2 ∧ OneHot b.2) :
    inverse_loss_discrete batch = -Real.log (1 + 1e-10) ∧
    |inverse_loss_discrete batch| ≤ 1e-10 := by
  have hc : ∀ b ∈ batch,
      (fun b : List ℝ × List ℝ => cross_entropy b.1 b.2) b = -Real.log (1 + 1e-10) := by
    intro b hb
    have h1 := (h b hb).1
    have h2 := (h b hb).2
    simp only
    rw [h1]
    exact cross_entropy_onehot_self b.2 h2
  have hlen : (batch.length : ℝ) ≠ 0 :=
    Nat.cast_ne_zero.mpr (List.length_pos.mpr hne).ne'
  have hsum : inverse_loss_discrete batch = -Real.log (1 + 1e-10) := by
    unfold inverse_loss_discrete
    rw [list_sum_map_const batch _ _ hc, mul_div_assoc, div_self hlen, mul_one]
  refine ⟨hsum, ?_⟩
  rw [hsum, abs_neg, abs_of_nonneg (Real.log_nonneg (by norm_num))]
  have hlog : Real.log (1 + 1e-10) ≤ (1 + 1e-10) - 1 :=
    Real.log_le_sub_one_of_pos (by norm_num)
  linarith [hlog]

lemma onehot_100 : OneHot [1, 0, 0] :=
  OneHot.head [0, 0] (by intro x hx; simp at hx; exact hx)

lemma onehot_batch_cond :
    ∀ b ∈ ([(([1, 0, 0] : List ℝ), ([1, 0, 0] : List ℝ))] : List (List ℝ × List ℝ)),
      b.1 = b.2 ∧ OneHot b.2 := by
  intro b hb
  simp only [List.mem_singleton] at hb
  subst hb
  exact ⟨rfl, onehot_100⟩

/-- Witness for C8 at the one-example batch whose prediction equals
the one-hot action (1, 0, 0). -/
theorem inverse_loss_onehot_witness :
    (([(([1, 0, 0] : List ℝ), ([1, 0, 0] : List ℝ))] : List (List ℝ × List ℝ)) ≠ [] ∧
     (∀ b ∈ ([(([1, 0, 0] : List ℝ), ([1, 0, 0] : List ℝ))] : List (List ℝ × List ℝ)),
        b.1 = b.2 ∧ OneHot b.2)) ∧
    (inverse_loss_discrete [(([1, 0, 0] : List ℝ), ([1, 0, 0] : List ℝ))] =
        -Real.log (1 + 1e-10) ∧
     |inverse_loss_discrete [(([1, 0, 0] : List ℝ), ([1, 0, 0] : List ℝ))]| ≤ 1e-10) :=
  ⟨⟨by simp, onehot_batch_cond⟩,
   inverse_loss_onehot [(([1, 0, 0] : List ℝ), ([1, 0, 0] : List ℝ))]
     (by simp) onehot_batch_cond⟩

end PPOModels
